import Mathlib

/-!
Verification of the redilock distributed-lock library (`redilock/base.py`,
`redilock/sync_redilock.py`, `redilock/async_redilock.py`).

Python strings are modelled as `List Char`; Python numbers (`int`/`float`
arguments such as ttl, interval, block) as `ℚ`; `None`-able numbers as
`Option ℚ`.  `assert` failures are modelled with `Except PyError`.  The
external Redis store is modelled as an association list of key/value pairs,
and the nondeterministic outcome of `SET ... NX PX` attempts as a boolean
oracle indexed by attempt number.  Wall-clock time is idealised: store calls
are instantaneous and `sleep d` advances the clock by exactly `d`.
-/

set_option autoImplicit false

namespace Redilock

/-- Python `s.split(sep)` for a one-character separator `c`:
splitting the empty string yields `[""]`, adjacent separators yield empty
fields, and the result always has one more field than there are separators. -/
def splitOnChar (c : Char) : List Char → List (List Char)
  | [] => [[]]
  | x :: xs =>
    let r := splitOnChar c xs
    if x = c then [] :: r
    else
      match r with
      | [] => [[x]]
      | y :: ys => (x :: y) :: ys

/-- A Python value passed where a token string is expected: either an actual
string or some non-string object (`isinstance(tok, str)` is `False`). -/
inductive PyObj where
  | str (s : List Char)
  | nonStr
  deriving DecidableEq

/-- The fixed leading field `"_LOCK"` of every minted token. -/
def lockTag : List Char := ['_', 'L', 'O', 'C', 'K']

/-- `DistributedLockBase._lockname2token`: builds
`f"_LOCK:{lock_name}:{uuid.uuid4().hex}"`.  The random hex suffix produced by
`uuid.uuid4().hex` is a parameter of the model. -/
def lockname2token (lock_name suffix : List Char) : List Char :=
  lockTag ++ ':' :: lock_name ++ ':' :: suffix

/-- `DistributedLockBase._token2lockname`: a non-string returns `""`;
otherwise split on `":"`, demand exactly three fields with the first equal
to `"_LOCK"`, and return the middle field; on any mismatch return `""`. -/
def token2lockname (tok : PyObj) : List Char :=
  match tok with
  | .nonStr => []
  | .str s =>
    let delim := splitOnChar ':' s
    if delim.length ≠ 3 ∨ delim.headD [] ≠ lockTag then []
    else (delim[1]?).getD []

theorem splitOnChar_of_not_mem (c : Char) (l : List Char) (h : c ∉ l) :
    splitOnChar c l = [l] := by
  induction l with
  | nil => rfl
  | cons x xs ih =>
    have hx : ¬x = c := fun hc => h (hc ▸ List.mem_cons_self x xs)
    have hxs : c ∉ xs := fun hc => h (List.mem_cons_of_mem x hc)
    simp only [splitOnChar, if_neg hx, ih hxs]

theorem splitOnChar_append (c : Char) (l rest : List Char) (h : c ∉ l) :
    splitOnChar c (l ++ c :: rest) = l :: splitOnChar c rest := by
  induction l with
  | nil => simp [splitOnChar]
  | cons x xs ih =>
    have hx : ¬x = c := fun hc => h (hc ▸ List.mem_cons_self x xs)
    have hxs : c ∉ xs := fun hc => h (List.mem_cons_of_mem x hc)
    simp only [List.cons_append, splitOnChar, List.append_eq, if_neg hx, ih hxs]

theorem splitOnChar_token (lock_name suffix : List Char)
    (hK : ':' ∉ lock_name) (hS : ':' ∉ suffix) :
    splitOnChar ':' (lockname2token lock_name suffix) =
      [lockTag, lock_name, suffix] := by
  have htag : ':' ∉ lockTag := by decide
  have h1 : lockname2token lock_name suffix =
      lockTag ++ ':' :: (lock_name ++ ':' :: suffix) := by
    simp [lockname2token]
  rw [h1, splitOnChar_append ':' lockTag _ htag,
    splitOnChar_append ':' lock_name _ hK,
    splitOnChar_of_not_mem ':' suffix hS]

/-- Python `a or b` on a `None`-able number: `None` and `0` are falsy. -/
def pyOr (a b : Option ℚ) : Option ℚ :=
  match a with
  | none => b
  | some x => if x = 0 then b else some x

/-- The `block` argument of `lock`: either a boolean (`True` = block forever,
`False` = no wait) or a numeric wait bound in seconds. -/
inductive PyBlock where
  | bool (b : Bool)
  | num (q : ℚ)
  deriving DecidableEq

/-- A failed Python `assert` raises `AssertionError`. -/
inductive PyError where
  | assertionError
  deriving DecidableEq

/-- The tuple returned by `DistributedLockBase._prepare_lock`. -/
structure Prepared where
  token : List Char
  ttl : ℚ
  end_wait : Option ℚ
  interval : ℚ
  deriving DecidableEq

/-- `DistributedLockBase._prepare_lock`: resolve `ttl`/`interval` against the
constructor defaults with Python `or` truthiness, assert both positive,
and for a numeric `block` assert it positive and fix the absolute deadline
`end_wait = time.time() + block` once; finally mint the token. -/
def prepare_lock (self_ttl self_interval : Option ℚ) (lock_name : List Char)
    (ttl : Option ℚ) (block : PyBlock) (interval : Option ℚ)
    (now : ℚ) (suffix : List Char) : Except PyError Prepared :=
  match pyOr ttl self_ttl with
  | none => .error .assertionError
  | some t =>
    if 0 < t then
      match pyOr interval self_interval with
      | none => .error .assertionError
      | some i =>
        if 0 < i then
          match block with
          | .bool _ => .ok ⟨lockname2token lock_name suffix, t, none, i⟩
          | .num b =>
            if 0 < b then
              .ok ⟨lockname2token lock_name suffix, t, some (now + b), i⟩
            else .error .assertionError
        else .error .assertionError
    else .error .assertionError

/-- Python `int(q)` for a rational: truncation toward zero, i.e. the
truncating division of the reduced numerator by the denominator. -/
def pyInt (q : ℚ) : ℤ := Int.tdiv q.num (q.den : ℤ)

/-- Python truthiness of the `block` value (`not block` in the loop). -/
def pyTruthyBlock : PyBlock → Bool
  | .bool b => b
  | .num q => decide (q ≠ 0)

/-- The loop condition `end_wait and time.time() >= end_wait`: `None` and the
float `0.0` are falsy, otherwise compare the clock against the deadline. -/
def deadlineHit (end_wait : Option ℚ) (t : ℚ) : Bool :=
  match end_wait with
  | none => false
  | some e => if e = 0 then false else decide (e ≤ t)

/-- Observable interactions of one `lock` call with the outside world:
a `SET lock_name token PX px NX` attempt issued at clock time `t`, or a
sleep of duration `d`. -/
inductive LoopEvent where
  | setEv (t : ℚ) (px : ℤ)
  | sleepEv (d : ℚ)
  deriving DecidableEq

/-- Result of the acquisition loop: the minted token was acquired, the call
returned `False` (refused), or the loop is still running when the fuel runs
out (the `block=True` loop never terminates while the key stays held). -/
inductive LoopResult where
  | acquired (tok : List Char)
  | refusedRes
  | spinning
  deriving DecidableEq

/-- One terminated (or fuel-exhausted) run of the acquisition loop. -/
structure LoopRun where
  result : LoopResult
  events : List LoopEvent
  endTime : ℚ
  deriving DecidableEq

/-- The `while True` loop of `DistributedLock.lock` (identical in
`sync_redilock.py` and `async_redilock.py`): attempt
`SET lock_name token px=int(ttl*1000) nx=True` (outcome of attempt `k` given
by `oracle k`), return the token on success; otherwise return `False` if
`not block or (end_wait and time.time() >= end_wait)`; otherwise sleep for
`interval` and retry.  `fuel` bounds the number of iterations modelled. -/
def lockLoop (oracle : Nat → Bool) (p : Prepared) (block : PyBlock) :
    Nat → Nat → ℚ → LoopRun
  | 0, _, t => ⟨.spinning, [], t⟩
  | fuel + 1, k, t =>
    let ev := LoopEvent.setEv t (pyInt (p.ttl * 1000))
    if oracle k then ⟨.acquired p.token, [ev], t⟩
    else if !pyTruthyBlock block || deadlineHit p.end_wait t then
      ⟨.refusedRes, [ev], t⟩
    else
      let r := lockLoop oracle p block fuel (k + 1) (t + p.interval)
      ⟨r.result, ev :: .sleepEv p.interval :: r.events, r.endTime⟩

/-- `DistributedLock.lock`: validate and resolve the arguments via
`_prepare_lock` (an `assert` failure escapes before any store attempt),
then run the acquisition loop starting at clock time `now`. -/
def lock (self_ttl self_interval : Option ℚ) (lock_name : List Char)
    (ttl : Option ℚ) (block : PyBlock) (interval : Option ℚ)
    (now : ℚ) (suffix : List Char) (oracle : Nat → Bool) (fuel : Nat) :
    Except PyError LoopRun :=
  (prepare_lock self_ttl self_interval lock_name ttl block interval now
    suffix).map (fun p => lockLoop oracle p block fuel 0 now)

/-- Number of `SET` attempts in an event trace. -/
def numSets : List LoopEvent → Nat
  | [] => 0
  | .setEv _ _ :: r => numSets r + 1
  | .sleepEv _ :: r => numSets r

/-- Number of sleeps in an event trace. -/
def numSleeps : List LoopEvent → Nat
  | [] => 0
  | .setEv _ _ :: r => numSleeps r
  | .sleepEv _ :: r => numSleeps r + 1

/-- The external Redis store: an association list from keys to values
(keys unique in any store built by Redis operations; `storeGet` finds the
first binding). -/
abbrev Store := List (List Char × List Char)

/-- Redis `GET key`: the value at `key`, or nil if absent. -/
def storeGet : Store → List Char → Option (List Char)
  | [], _ => none
  | (k, v) :: rest, key => if k = key then some v else storeGet rest key

/-- Remove every binding of `key`. -/
def storeRemove : Store → List Char → Store
  | [], _ => []
  | (k, v) :: rest, key =>
    if k = key then storeRemove rest key
    else (k, v) :: storeRemove rest key

/-- Redis `DEL key`: the store without `key`, and the number of keys
removed (1 if `key` was present, else 0). -/
def storeDel (st : Store) (key : List Char) : Store × Nat :=
  (storeRemove st key, if (storeGet st key).isSome then 1 else 0)

/-- `UNLOCK_SCRIPT` (`base.py`): atomically, if `GET lock_name` equals the
supplied secret token then `DEL lock_name` and return its count, else
return 0. -/
def runUnlockScript (st : Store) (lock_name tok : List Char) : Store × Nat :=
  if storeGet st lock_name = some tok then storeDel st lock_name
  else (st, 0)

/-- An observable store-side operation issued by `unlock`: one atomic
execution of the unlock script. -/
inductive StoreCall where
  | scriptCall (lock_name tok : List Char)
  deriving DecidableEq

/-- The underlying character data of a Python object (used only after an
`isinstance(_, str)` guard has succeeded). -/
def pyStrVal : PyObj → List Char
  | .str s => s
  | .nonStr => []

/-- `DistributedLock.unlock` of `async_redilock.py`: recover the lock name
via `_token2lockname`; if it is falsy (empty) return `False` without any
store call; otherwise run the unlock script and return whether it
returned 1.  Result: (return value, store afterwards, store calls made). -/
def unlock_async (st : Store) (tok : PyObj) : Bool × Store × List StoreCall :=
  let lock_name := token2lockname tok
  if lock_name = [] then (false, st, [])
  else
    let r := runUnlockScript st lock_name (pyStrVal tok)
    (r.2 == 1, r.1, [.scriptCall lock_name (pyStrVal tok)])

/-- `DistributedLock.unlock` of `sync_redilock.py`: takes the lock name as
an explicit argument, performs no token parsing or validation, always runs
the unlock script, and returns whether it returned 1. -/
def unlock_sync (st : Store) (lock_name tok : List Char) :
    Bool × Store × List StoreCall :=
  let r := runUnlockScript st lock_name tok
  (r.2 == 1, r.1, [.scriptCall lock_name tok])

/-- `RedisLuaScriptBase.__init__`: keep the script text and its SHA-1 hex
digest.  The SHA-1 function is an abstract parameter of the model (shared
with the server's `SCRIPT LOAD`, which caches scripts under the same
content hash). -/
structure RediScript where
  script : List Char
  script_sha1 : List Char
  deriving DecidableEq

/-- Construct a `RediScript` the way `__init__` does, hashing the script. -/
def mkRediScript (sha1 : List Char → List Char) (script : List Char) :
    RediScript :=
  ⟨script, sha1 script⟩

/-- Redis raises `NoScriptError` when `EVALSHA` names an uncached script. -/
inductive NoScriptError where
  | noScript
  deriving DecidableEq

/-- Observable calls issued by `_RediScript.run`. -/
inductive ScriptEvent where
  | evalshaEv (sha : List Char)
  | scriptLoadEv (script : List Char)
  deriving DecidableEq

/-- Redis `EVALSHA sha ...`: if `sha` is in the server's script cache the
script executes and produces `res`, otherwise `NoScriptError` is raised. -/
def evalshaCall {α : Type} (cache : List (List Char)) (sha : List Char)
    (res : α) : Except NoScriptError α :=
  if sha ∈ cache then .ok res else .error .noScript

/-- `_RediScript.run` (identical in `sync_redilock.py` and
`async_redilock.py`): `try: evalsha(sha1)` — on `NoScriptError`,
`script_load(script)` (the server caches it under `sha1 script`) and retry
`evalsha(sha1)` once; any exception from the retry propagates.  Returns the
script result, the server cache afterwards, and the calls made. -/
def scriptRun {α : Type} (sha1 : List Char → List Char) (s : RediScript)
    (cache : List (List Char)) (res : α) :
    Except NoScriptError (α × List (List Char) × List ScriptEvent) :=
  match evalshaCall cache s.script_sha1 res with
  | .ok r => .ok (r, cache, [.evalshaEv s.script_sha1])
  | .error _ =>
    let cache' := sha1 s.script :: cache
    match evalshaCall cache' s.script_sha1 res with
    | .ok r =>
      .ok (r, cache',
        [.evalshaEv s.script_sha1, .scriptLoadEv s.script,
          .evalshaEv s.script_sha1])
    | .error e => .error e

/-- Outcome of the caller-supplied body of a `with` block: a normal value
or a raised exception. -/
inductive Outcome (α : Type) where
  | ok (a : α)
  | exc (e : List Char)
  deriving DecidableEq

/-- Events of the scoped-acquisition wrapper: acquisition returning a
token, the protected body running, and a release attempt (carrying the
token, or `none` when the Python code would pass the value `False`). -/
inductive CMEvent where
  | acq (tok : List Char)
  | bodyEv
  | rel (tokOrFalse : Option (List Char))
  deriving DecidableEq

/-- Python `try: body finally: fin`: the finalizer runs on the normal and
the exceptional path alike, and the body's outcome (value or re-raised
exception) is preserved. -/
def tryFinally {α : Type} (body : Outcome α × List CMEvent)
    (fin : List CMEvent) : Outcome α × List CMEvent :=
  match body with
  | (.ok a, evs) => (.ok a, evs ++ fin)
  | (.exc e, evs) => (.exc e, evs ++ fin)

/-- `DistributedLock.__call__` (the `@contextmanager` wrapper; the async
variant is line-for-line identical except that its release passes only the
token to `unlock`): `token = self.lock(lock_name, ttl)` with `block` and
`interval` left at their defaults (`True`, `None`), then
`try: yield` / `finally: self.unlock(...)` with the value `lock` returned.
If the `block=True` loop is still waiting when the fuel runs out, the body
is never entered. -/
def contextCall {α : Type} (self_ttl self_interval : Option ℚ)
    (lock_name : List Char) (ttl : Option ℚ) (now : ℚ) (suffix : List Char)
    (oracle : Nat → Bool) (fuel : Nat) (body : Outcome α) :
    Except PyError (Option (Outcome α) × List CMEvent) :=
  match lock self_ttl self_interval lock_name ttl (.bool true) none now
      suffix oracle fuel with
  | .error e => .error e
  | .ok run =>
    match run.result with
    | .spinning => .ok (none, [])
    | .acquired tok =>
      let r := tryFinally (body, [.bodyEv]) [.rel (some tok)]
      .ok (some r.1, .acq tok :: r.2)
    | .refusedRes =>
      let r := tryFinally (body, [.bodyEv]) [.rel none]
      .ok (some r.1, r.2)

/-- Claim C2 counterexample: for the lock key `"a:b"`, which contains the
delimiter character, recovery from a freshly minted token (with the hex
suffix `"0f"`) returns `""`, not the key, because the split yields four
fields instead of three. -/
theorem claim_C2_counterexample :
    token2lockname (.str (lockname2token ['a', ':', 'b'] ['0', 'f'])) ≠
      ['a', ':', 'b'] := by
  decide

/-- Claim C2 (amended): for every lock key `K` that does not contain the
delimiter `':'` and every colon-free random suffix (`uuid4().hex` is always
colon-free), recovering the lock name from a freshly minted token returns
exactly `K`. -/
theorem claim_C2_roundtrip (K suffix : List Char)
    (hK : (':' : Char) ∉ K) (hS : (':' : Char) ∉ suffix) :
    token2lockname (.str (lockname2token K suffix)) = K := by
  simp [token2lockname, splitOnChar_token K suffix hK hS, lockTag]

/-- Witness for `claim_C2_roundtrip` at the key `"mylock"` and suffix
`"0fab"`. -/
theorem claim_C2_roundtrip_witness :
    (':' : Char) ∉ ['m', 'y', 'l', 'o', 'c', 'k'] ∧
    (':' : Char) ∉ ['0', 'f', 'a', 'b'] ∧
    token2lockname
        (.str (lockname2token ['m', 'y', 'l', 'o', 'c', 'k']
          ['0', 'f', 'a', 'b'])) = ['m', 'y', 'l', 'o', 'c', 'k'] :=
  ⟨by decide, by decide,
    claim_C2_roundtrip ['m', 'y', 'l', 'o', 'c', 'k'] ['0', 'f', 'a', 'b']
      (by decide) (by decide)⟩

/-- Claim C1 counterexample: the sync variant's `unlock` performs a store
operation (it runs the unlock script) even when the supplied token does not
match the expected token format, refuting "a malformed or foreign token
never causes any store operation". -/
theorem claim_C1_counterexample :
    token2lockname (.str ['g']) = [] ∧
    (unlock_sync [(['k'], ['v'])] ['k'] ['g']).2.2 ≠ [] := by
  decide

/-- Claim C1 (amended): in the async variant, `unlock` with a token that
does not match the expected format (including non-string values, for which
`_token2lockname` also yields the empty name) returns `False`, leaves the
store unchanged, and issues no store operation.  The sync variant's
`unlock` takes the lock name as an explicit argument, performs no
token-format validation, and always runs the store-side script. -/
theorem claim_C1_async_malformed (st : Store) (tok : PyObj)
    (h : token2lockname tok = []) :
    unlock_async st tok = (false, st, []) := by
  simp [unlock_async, h]

/-- Witness for `claim_C1_async_malformed` at the malformed token `"g"`. -/
theorem claim_C1_async_malformed_witness :
    token2lockname (.str ['g']) = [] ∧
    unlock_async [(['k'], ['v'])] (.str ['g']) = (false, [(['k'], ['v'])], []) :=
  ⟨by decide, claim_C1_async_malformed [(['k'], ['v'])] (.str ['g']) (by decide)⟩

theorem storeGet_storeRemove_self (st : Store) (key : List Char) :
    storeGet (storeRemove st key) key = none := by
  induction st with
  | nil => rfl
  | cons kv rest ih =>
    obtain ⟨k, v⟩ := kv
    by_cases hk : k = key
    · simp [storeRemove, hk, ih]
    · simp [storeRemove, storeGet, hk, ih]

theorem storeGet_storeRemove_ne (st : Store) (key k : List Char)
    (h : k ≠ key) : storeGet (storeRemove st key) k = storeGet st k := by
  induction st with
  | nil => rfl
  | cons kv rest ih =>
    obtain ⟨k', v⟩ := kv
    by_cases hk : k' = key
    · simp [storeRemove, storeGet, hk, Ne.symm h, ih]
    · by_cases hkk : k' = k
      · subst hkk
        simp [storeRemove, storeGet, hk]
      · simp [storeRemove, storeGet, hk, hkk, ih]

/-- Claim C5: `unlock` returns `true` iff the atomic script runs (the token
parses to a nonempty lock name) and, at that moment, the value stored under
the recovered key equals the supplied token, in which case exactly that
record is deleted (the recovered key becomes absent and every other key is
untouched); in every other case it returns `false` and the store is
unchanged — hence a second `unlock` with the same token after a first
successful one returns `false`. -/
theorem claim_C5_unlock (st : Store) (tok : PyObj) :
    ((unlock_async st tok).1 = true ↔
      token2lockname tok ≠ [] ∧
        storeGet st (token2lockname tok) = some (pyStrVal tok)) ∧
    ((unlock_async st tok).1 = true →
      storeGet (unlock_async st tok).2.1 (token2lockname tok) = none ∧
      ∀ k, k ≠ token2lockname tok →
        storeGet (unlock_async st tok).2.1 k = storeGet st k) ∧
    ((unlock_async st tok).1 = false → (unlock_async st tok).2.1 = st) ∧
    ((unlock_async st tok).1 = true →
      (unlock_async (unlock_async st tok).2.1 tok).1 = false) := by
  by_cases hL : token2lockname tok = []
  · simp [unlock_async, hL]
  · by_cases hG : storeGet st (token2lockname tok) = some (pyStrVal tok)
    · refine ⟨?_, ?_, ?_, ?_⟩
      · simp [unlock_async, hL, runUnlockScript, hG, storeDel]
      · intro _
        refine ⟨?_, ?_⟩
        · simp [unlock_async, hL, runUnlockScript, hG, storeDel,
            storeGet_storeRemove_self]
        · intro k hk
          simp [unlock_async, hL, runUnlockScript, hG, storeDel,
            storeGet_storeRemove_ne st (token2lockname tok) k hk]
      · intro hfalse
        simp [unlock_async, hL, runUnlockScript, hG, storeDel] at hfalse
      · intro _
        simp [unlock_async, hL, runUnlockScript, hG, storeDel,
          storeGet_storeRemove_self]
    · simp [unlock_async, hL, runUnlockScript, hG]

/-- Witness for `claim_C5_unlock`: a store holding a freshly minted token
for key `"a"`, released with that token, returns `true`. -/
theorem claim_C5_unlock_witness :
    (unlock_async [(['a'], lockname2token ['a'] ['f'])]
        (.str (lockname2token ['a'] ['f']))).1 = true :=
  ((claim_C5_unlock [(['a'], lockname2token ['a'] ['f'])]
      (.str (lockname2token ['a'] ['f']))).1).mpr ⟨by decide, by decide⟩

theorem lock_ok_inv (self_ttl self_interval : Option ℚ)
    (lock_name : List Char) (ttl : Option ℚ) (block : PyBlock)
    (interval : Option ℚ) (now : ℚ) (suffix : List Char)
    (oracle : Nat → Bool) (fuel : Nat) (run : LoopRun)
    (h : lock self_ttl self_interval lock_name ttl block interval now suffix
      oracle fuel = .ok run) :
    ∃ p, prepare_lock self_ttl self_interval lock_name ttl block interval now
        suffix = .ok p ∧ run = lockLoop oracle p block fuel 0 now := by
  unfold lock at h
  cases hp : prepare_lock self_ttl self_interval lock_name ttl block interval
      now suffix with
  | error e => rw [hp] at h; simp [Except.map] at h
  | ok p =>
    rw [hp] at h
    simp [Except.map] at h
    exact ⟨p, rfl, h.symm⟩

theorem prepare_lock_bool (self_ttl self_interval : Option ℚ)
    (lock_name : List Char) (ttl : Option ℚ) (b : Bool)
    (interval : Option ℚ) (now : ℚ) (suffix : List Char) (p : Prepared)
    (h : prepare_lock self_ttl self_interval lock_name ttl (.bool b) interval
      now suffix = .ok p) :
    p.end_wait = none ∧ p.token = lockname2token lock_name suffix ∧
      0 < p.interval := by
  unfold prepare_lock at h
  repeat' split at h
  all_goals try (injection h with h; subst h; exact ⟨rfl, rfl, by assumption⟩)
  all_goals simp_all

/-- Claim C3: for every `lock` call on any client — whatever the
constructor-time defaults — if the effective ttl (after the Python
`ttl or self._ttl` fallback) is ≤ 0, the effective retry interval is ≤ 0,
or a numeric wait bound ≤ 0 is passed, the call raises `AssertionError`
synchronously and no store conditional-set is ever attempted. -/
theorem claim_C3_fail_fast (self_ttl self_interval : Option ℚ)
    (lock_name : List Char) (ttl : Option ℚ) (block : PyBlock)
    (interval : Option ℚ) (now : ℚ) (suffix : List Char)
    (oracle : Nat → Bool) (fuel : Nat)
    (h : (∃ t, pyOr ttl self_ttl = some t ∧ t ≤ 0) ∨
         (∃ i, pyOr interval self_interval = some i ∧ i ≤ 0) ∨
         (∃ b, block = .num b ∧ b ≤ 0)) :
    lock self_ttl self_interval lock_name ttl block interval now suffix
      oracle fuel = .error .assertionError := by
  have hp : prepare_lock self_ttl self_interval lock_name ttl block interval
      now suffix = .error .assertionError := by
    unfold prepare_lock
    rcases h with ⟨t, ht, ht0⟩ | ⟨i, hi, hi0⟩ | ⟨b, hb, hb0⟩
    · rw [ht]
      simp [not_lt.mpr ht0]
    · cases hT : pyOr ttl self_ttl with
      | none => simp
      | some t =>
        by_cases h0 : 0 < t
        · rw [hi]
          simp [h0, not_lt.mpr hi0]
        · simp [h0]
    · cases hT : pyOr ttl self_ttl with
      | none => simp
      | some t =>
        by_cases h0 : 0 < t
        · cases hI : pyOr interval self_interval with
          | none => simp [h0]
          | some i =>
            by_cases hi' : 0 < i
            · rw [hb]
              simp [h0, hi', not_lt.mpr hb0]
            · simp [h0, hi']
        · simp [h0]
  simp [lock, hp, Except.map]

/-- Witness for `claim_C3_fail_fast`: a call passing `ttl = -1` raises
`AssertionError` without any store attempt. -/
theorem claim_C3_fail_fast_witness :
    (∃ t, pyOr (some (-1 : ℚ)) none = some t ∧ t ≤ 0) ∧
    lock none none ['k'] (some (-1)) (.bool true) (some 1) 0 ['s']
      (fun _ => false) 3 = .error .assertionError :=
  ⟨⟨-1, by decide, by decide⟩,
    claim_C3_fail_fast none none ['k'] (some (-1)) (.bool true) (some 1) 0
      ['s'] (fun _ => false) 3 (Or.inl ⟨-1, by decide, by decide⟩)⟩

/-- Claim C7: under the no-wait policy (`block=False`), a refused first
conditional-set makes `lock` return failure immediately: exactly one store
attempt, zero sleeps, and the clock has not advanced. -/
theorem claim_C7_nowait (self_ttl self_interval : Option ℚ)
    (lock_name : List Char) (ttl interval : Option ℚ) (now : ℚ)
    (suffix : List Char) (oracle : Nat → Bool) (fuel : Nat) (run : LoopRun)
    (hfail : oracle 0 = false)
    (hrun : lock self_ttl self_interval lock_name ttl (.bool false) interval
      now suffix oracle (fuel + 1) = .ok run) :
    run.result = .refusedRes ∧ numSets run.events = 1 ∧
      numSleeps run.events = 0 ∧ run.endTime = now := by
  obtain ⟨p, hp, hrun'⟩ := lock_ok_inv _ _ _ _ _ _ _ _ _ _ _ hrun
  subst hrun'
  simp [lockLoop, hfail, pyTruthyBlock, numSets, numSleeps]

/-- Witness for `claim_C7_nowait`: a concrete no-wait call against a held
key returns refusal at once with a single `SET` attempt. -/
theorem claim_C7_nowait_witness :
    ((fun _ : Nat => false) 0 = false) ∧
    ((⟨.refusedRes, [.setEv 0 1000], 0⟩ : LoopRun).result = .refusedRes ∧
      numSets (⟨.refusedRes, [.setEv 0 1000], 0⟩ : LoopRun).events = 1 ∧
      numSleeps (⟨.refusedRes, [.setEv 0 1000], 0⟩ : LoopRun).events = 0 ∧
      (⟨.refusedRes, [.setEv 0 1000], 0⟩ : LoopRun).endTime = 0) :=
  ⟨rfl, claim_C7_nowait (some 1) (some 1) ['k'] none none 0 ['s']
    (fun _ => false) 0 ⟨.refusedRes, [.setEv 0 1000], 0⟩ rfl
    (by simp [lock, prepare_lock, pyOr, lockLoop, pyInt, pyTruthyBlock,
      deadlineHit, Except.map])⟩

/-- Claim C4 counterexample: with bound `B = 1`, interval `I = 2`, start
time `0` and a permanently contended key, the deadline is `0 + 1` yet the
trace contains a second conditional-set attempt at time `2`, strictly after
the deadline — the loop rechecks the deadline before sleeping, not after
sleeping, so a further store attempt is always made once the deadline has
passed, refuting the claim's "returning refused without any further store
attempt once the deadline has passed". -/
theorem claim_C4_counterexample :
    (lock (some 1) none ['k'] none (.num 1) (some 2) 0 ['s']
        (fun _ => false) 2 =
      .ok ⟨.refusedRes, [.setEv 0 1000, .sleepEv 2, .setEv 2 1000], 2⟩) ∧
    ((0 : ℚ) + 1 < 2) := by
  refine ⟨?_, by norm_num⟩
  simp [lock, prepare_lock, pyOr, lockLoop, pyInt, pyTruthyBlock,
    deadlineHit, Except.map]

theorem lockLoop_no_deadline (oracle : Nat → Bool) (p : Prepared)
    (hew : p.end_wait = none) :
    ∀ fuel k t,
      (lockLoop oracle p (.bool true) fuel k t).result ≠ .refusedRes ∧
      ((∀ j, j < fuel → oracle (k + j) = false) →
        (lockLoop oracle p (.bool true) fuel k t).result = .spinning ∧
        numSets (lockLoop oracle p (.bool true) fuel k t).events = fuel ∧
        numSleeps (lockLoop oracle p (.bool true) fuel k t).events = fuel) ∧
      (∀ tok,
        (lockLoop oracle p (.bool true) fuel k t).result = .acquired tok →
        tok = p.token) := by
  intro fuel
  induction fuel with
  | zero =>
    intro k t
    refine ⟨by simp [lockLoop], fun _ => by simp [lockLoop, numSets, numSleeps],
      fun tok h => by simp [lockLoop] at h⟩
  | succ n ih =>
    intro k t
    by_cases hk : oracle k
    · refine ⟨by simp [lockLoop, hk], ?_, ?_⟩
      · intro hall
        have h0 := hall 0 (Nat.succ_pos n)
        rw [Nat.add_zero] at h0
        exact absurd hk (by simp [h0])
      · intro tok h
        simp [lockLoop, hk] at h
        exact h.symm
    · have hstep : lockLoop oracle p (.bool true) (n + 1) k t =
          ⟨(lockLoop oracle p (.bool true) n (k + 1) (t + p.interval)).result,
            .setEv t (pyInt (p.ttl * 1000)) :: .sleepEv p.interval ::
              (lockLoop oracle p (.bool true) n (k + 1)
                (t + p.interval)).events,
            (lockLoop oracle p (.bool true) n (k + 1)
              (t + p.interval)).endTime⟩ := by
        simp [lockLoop, hk, pyTruthyBlock, hew, deadlineHit]
      obtain ⟨ih1, ih2, ih3⟩ := ih (k + 1) (t + p.interval)
      refine ⟨?_, ?_, ?_⟩
      · rw [hstep]
        exact ih1
      · intro hall
        have hall' : ∀ j, j < n → oracle (k + 1 + j) = false := by
          intro j hj
          have heq : k + (j + 1) = k + 1 + j := by omega
          have := hall (j + 1) (Nat.succ_lt_succ hj)
          rwa [heq] at this
        obtain ⟨r1, r2, r3⟩ := ih2 hall'
        rw [hstep]
        exact ⟨r1, by simp [numSets, r2], by simp [numSleeps, r3]⟩
      · intro tok h
        rw [hstep] at h
        exact ih3 tok h

/-- Claim C8: under the block-forever policy (`block=True`) the acquisition
loop never returns the refused result: within any fuel bound the run either
returns exactly the minted token (and only when a conditional-set
succeeds), or — if every attempt so far was refused — is still retrying,
having slept once for the retry interval after each refused attempt. -/
theorem claim_C8_block_forever (self_ttl self_interval : Option ℚ)
    (lock_name : List Char) (ttl interval : Option ℚ) (now : ℚ)
    (suffix : List Char) (oracle : Nat → Bool) (fuel : Nat) (run : LoopRun)
    (hrun : lock self_ttl self_interval lock_name ttl (.bool true) interval
      now suffix oracle fuel = .ok run) :
    run.result ≠ .refusedRes ∧
    ((∀ j, j < fuel → oracle j = false) →
      run.result = .spinning ∧ numSets run.events = fuel ∧
        numSleeps run.events = fuel) ∧
    (∀ tok, run.result = .acquired tok →
      tok = lockname2token lock_name suffix) := by
  obtain ⟨p, hp, hrun'⟩ := lock_ok_inv _ _ _ _ _ _ _ _ _ _ _ hrun
  obtain ⟨hew, htok, _⟩ := prepare_lock_bool _ _ _ _ _ _ _ _ _ hp
  subst hrun'
  obtain ⟨h1, h2, h3⟩ := lockLoop_no_deadline oracle p hew fuel 0 now
  refine ⟨h1, ?_, ?_⟩
  · intro hall
    exact h2 (fun j hj => by simpa using hall j hj)
  · intro tok h
    rw [htok] at h3
    exact h3 tok h

/-- Witness for `claim_C8_block_forever`: a block-forever call against a
permanently contended key is still retrying after two refused attempts and
two sleeps, and has not returned refusal. -/
theorem claim_C8_block_forever_witness :
    (⟨.spinning, [.setEv 0 1000, .sleepEv 1, .setEv 1 1000, .sleepEv 1], 2⟩ :
        LoopRun).result ≠ .refusedRes ∧
    ((∀ j, j < 2 → (fun _ : Nat => false) j = false) →
      (⟨.spinning, [.setEv 0 1000, .sleepEv 1, .setEv 1 1000, .sleepEv 1],
          2⟩ : LoopRun).result = .spinning ∧
      numSets (⟨.spinning,
        [.setEv 0 1000, .sleepEv 1, .setEv 1 1000, .sleepEv 1], 2⟩ :
          LoopRun).events = 2 ∧
      numSleeps (⟨.spinning,
        [.setEv 0 1000, .sleepEv 1, .setEv 1 1000, .sleepEv 1], 2⟩ :
          LoopRun).events = 2) ∧
    (∀ tok, (⟨.spinning,
        [.setEv 0 1000, .sleepEv 1, .setEv 1 1000, .sleepEv 1], 2⟩ :
          LoopRun).result = .acquired tok →
      tok = lockname2token ['k'] ['s']) :=
  claim_C8_block_forever none none ['k'] (some 1) (some 1) 0 ['s']
    (fun _ => false) 2
    ⟨.spinning, [.setEv 0 1000, .sleepEv 1, .setEv 1 1000, .sleepEv 1], 2⟩
    (by simp [lock, prepare_lock, pyOr, lockLoop, pyInt, pyTruthyBlock,
      deadlineHit, Except.map, one_add_one_eq_two])

theorem lockLoop_bounded_allfail (oracle : Nat → Bool) (p : Prepared)
    (B e : ℚ) (hfail : ∀ j, oracle j = false) (hB : B ≠ 0)
    (hI : 0 < p.interval) (he : 0 < e) (hew : p.end_wait = some e) :
    ∀ fuel k t, ⌈(e - t) / p.interval⌉.toNat + 1 ≤ fuel →
      (lockLoop oracle p (.num B) fuel k t).result = .refusedRes ∧
      (lockLoop oracle p (.num B) fuel k t).endTime =
        t + (⌈(e - t) / p.interval⌉.toNat : ℚ) * p.interval ∧
      e ≤ (lockLoop oracle p (.num B) fuel k t).endTime ∧
      (lockLoop oracle p (.num B) fuel k t).events.getLast? =
        some (.setEv (lockLoop oracle p (.num B) fuel k t).endTime
          (pyInt (p.ttl * 1000))) := by
  intro fuel
  induction fuel with
  | zero => intro k t hf; omega
  | succ n ih =>
    intro k t hf
    by_cases ht : e ≤ t
    · have hceil : ⌈(e - t) / p.interval⌉ ≤ 0 := by
        rw [Int.ceil_le]
        push_cast
        apply div_nonpos_of_nonpos_of_nonneg _ hI.le
        linarith
      have h0 : ⌈(e - t) / p.interval⌉.toNat = 0 := by omega
      have hstep : lockLoop oracle p (.num B) (n + 1) k t =
          ⟨.refusedRes, [.setEv t (pyInt (p.ttl * 1000))], t⟩ := by
        simp [lockLoop, hfail k, pyTruthyBlock, hB, hew, deadlineHit,
          he.ne', ht]
      rw [hstep]
      refine ⟨rfl, by simp [h0], by simpa using ht, rfl⟩
    · push_neg at ht
      have hIne : p.interval ≠ 0 := hI.ne'
      have hceil1 : (1 : ℤ) ≤ ⌈(e - t) / p.interval⌉ := by
        have : (0 : ℚ) < (e - t) / p.interval :=
          div_pos (by linarith) hI
        exact Int.ceil_pos.mpr this
      have hshift : ⌈(e - (t + p.interval)) / p.interval⌉ =
          ⌈(e - t) / p.interval⌉ - 1 := by
        have harg : (e - (t + p.interval)) / p.interval =
            (e - t) / p.interval - 1 := by
          field_simp
          ring
        rw [harg]
        exact_mod_cast Int.ceil_sub_one ((e - t) / p.interval)
      have hfuel' : ⌈(e - (t + p.interval)) / p.interval⌉.toNat + 1 ≤ n := by
        rw [hshift]; omega
      have hstep : lockLoop oracle p (.num B) (n + 1) k t =
          ⟨(lockLoop oracle p (.num B) n (k + 1) (t + p.interval)).result,
            .setEv t (pyInt (p.ttl * 1000)) :: .sleepEv p.interval ::
              (lockLoop oracle p (.num B) n (k + 1)
                (t + p.interval)).events,
            (lockLoop oracle p (.num B) n (k + 1)
              (t + p.interval)).endTime⟩ := by
        simp [lockLoop, hfail k, pyTruthyBlock, hB, hew, deadlineHit,
          he.ne', not_le.mpr ht]
      obtain ⟨r1, r2, r3, r4⟩ := ih (k + 1) (t + p.interval) hfuel'
      rw [hstep]
      refine ⟨r1, ?_, ?_, ?_⟩
      · show (lockLoop oracle p (.num B) n (k + 1) (t + p.interval)).endTime
          = _
        rw [r2, hshift]
        have htn : (⌈(e - t) / p.interval⌉ - 1).toNat =
            ⌈(e - t) / p.interval⌉.toNat - 1 := by omega
        have h1n : 1 ≤ ⌈(e - t) / p.interval⌉.toNat := by omega
        rw [htn, Nat.cast_sub h1n]
        push_cast
        ring
      · show e ≤ (lockLoop oracle p (.num B) n (k + 1)
          (t + p.interval)).endTime
        exact r3
      · show (LoopEvent.setEv t (pyInt (p.ttl * 1000)) ::
            LoopEvent.sleepEv p.interval ::
            (lockLoop oracle p (.num B) n (k + 1)
              (t + p.interval)).events).getLast? = _
        cases hevs : (lockLoop oracle p (.num B) n (k + 1)
            (t + p.interval)).events with
        | nil => rw [hevs] at r4; simp at r4
        | cons a as =>
          rw [hevs] at r4
          rw [List.getLast?_cons_cons, List.getLast?_cons_cons]
          exact r4

/-- Claim C4 (amended): under the bounded-wait policy with bound `B > 0`
and effective retry interval `I > 0`, `lock` computes the absolute deadline
`now + B` exactly once; after each refused conditional-set it immediately
rechecks the wall clock against the deadline and returns refused if the
deadline has passed, otherwise sleeps for `I` and attempts again — so the
final refused attempt occurs at or after the deadline (one store attempt is
made after the deadline passes, the code checks before sleeping rather than
after), and the total wait before returning failure is `≥ B` and
`< B + I`. -/
theorem claim_C4_bounded (self_ttl self_interval : Option ℚ)
    (lock_name : List Char) (T B I now : ℚ) (suffix : List Char)
    (oracle : Nat → Bool) (fuel : Nat)
    (hT : 0 < T) (hB : 0 < B) (hI : 0 < I) (hnow : 0 ≤ now)
    (hfail : ∀ j, oracle j = false)
    (hfuel : ⌈B / I⌉.toNat + 1 ≤ fuel) :
    ∃ run,
      lock self_ttl self_interval lock_name (some T) (.num B) (some I) now
        suffix oracle fuel = .ok run ∧
      run.result = .refusedRes ∧
      B ≤ run.endTime - now ∧ run.endTime - now < B + I ∧
      now + B ≤ run.endTime ∧
      run.events.getLast? =
        some (.setEv run.endTime (pyInt (T * 1000))) := by
  have hp : prepare_lock self_ttl self_interval lock_name (some T) (.num B)
      (some I) now suffix =
      .ok ⟨lockname2token lock_name suffix, T, some (now + B), I⟩ := by
    simp [prepare_lock, pyOr, hT.ne', hT, hI.ne', hI, hB]
  set p : Prepared := ⟨lockname2token lock_name suffix, T, some (now + B), I⟩
    with hpdef
  have he : 0 < now + B := by linarith
  have harg : now + B - now = B := by ring
  have hfuel' : ⌈(now + B - now) / p.interval⌉.toNat + 1 ≤ fuel := by
    rw [harg]; exact hfuel
  obtain ⟨r1, r2, r3, r4⟩ :=
    lockLoop_bounded_allfail oracle p B (now + B) hfail hB.ne' hI he rfl
      fuel 0 now hfuel'
  rw [harg] at r2
  refine ⟨lockLoop oracle p (.num B) fuel 0 now, ?_, r1, ?_, ?_, r3, r4⟩
  · simp [lock, hp, Except.map, hpdef]
  · rw [r2]
    have hle : B / I ≤ (⌈B / I⌉ : ℚ) := Int.le_ceil (B / I)
    have hcast : ((⌈B / I⌉.toNat : ℚ)) = ((⌈B / I⌉ : ℤ) : ℚ) := by
      have : (0 : ℤ) ≤ ⌈B / I⌉ := by
        have : (0 : ℚ) < B / I := div_pos hB hI
        exact (Int.ceil_pos.mpr this).le
      exact_mod_cast Int.toNat_of_nonneg this
    have : B ≤ (⌈B / I⌉ : ℚ) * I := by
      rw [div_le_iff₀ hI] at hle
      exact hle
    calc B ≤ (⌈B / I⌉ : ℚ) * I := this
      _ = (⌈B / I⌉.toNat : ℚ) * p.interval := by rw [hcast]
      _ = now + (⌈B / I⌉.toNat : ℚ) * p.interval - now := by ring
  · rw [r2]
    have hlt : ((⌈B / I⌉ : ℤ) : ℚ) < B / I + 1 := Int.ceil_lt_add_one (B / I)
    have hcast : ((⌈B / I⌉.toNat : ℚ)) = ((⌈B / I⌉ : ℤ) : ℚ) := by
      have : (0 : ℤ) ≤ ⌈B / I⌉ := by
        have : (0 : ℚ) < B / I := div_pos hB hI
        exact (Int.ceil_pos.mpr this).le
      exact_mod_cast Int.toNat_of_nonneg this
    have hmul : ((⌈B / I⌉ : ℤ) : ℚ) * I < (B / I + 1) * I :=
      (mul_lt_mul_right hI).mpr hlt
    have hexp : (B / I + 1) * I = B + I := by
      field_simp
    calc now + (⌈B / I⌉.toNat : ℚ) * p.interval - now
        = (⌈B / I⌉.toNat : ℚ) * I := by ring
      _ = ((⌈B / I⌉ : ℤ) : ℚ) * I := by rw [hcast]
      _ < (B / I + 1) * I := hmul
      _ = B + I := hexp

/-- Witness for `claim_C4_bounded`: bound 1, interval 1, enough fuel — the
bounded wait returns refusal with total wait in `[1, 2)`. -/
theorem claim_C4_bounded_witness :
    ((0 : ℚ) < 1) ∧ (∀ j : Nat, (fun _ : Nat => false) j = false) ∧
    (⌈(1 : ℚ) / 1⌉.toNat + 1 ≤ 2) ∧
    (∃ run,
      lock none none ['k'] (some 1) (.num 1) (some 1) 0 ['s']
        (fun _ => false) 2 = .ok run ∧
      run.result = .refusedRes ∧
      (1 : ℚ) ≤ run.endTime - 0 ∧ run.endTime - 0 < 1 + 1 ∧
      (0 : ℚ) + 1 ≤ run.endTime ∧
      run.events.getLast? =
        some (.setEv run.endTime (pyInt ((1 : ℚ) * 1000)))) :=
  ⟨by decide, fun _ => rfl, by simp,
    claim_C4_bounded none none ['k'] 1 1 1 0 ['s'] (fun _ => false) 2
      (by decide) (by decide) (by decide) (by decide) (fun _ => rfl)
      (by simp)⟩

/-- Claim C9: every `_RediScript.run` follows the
execute-by-hash-with-fallback-load pattern: first `EVALSHA` by the script's
content hash; exactly when the store reports the script uncached, one
`SCRIPT LOAD` followed by one retry `EVALSHA`; in either path the script's
result is returned to the caller unchanged and no error escapes. -/
theorem claim_C9_script_pattern (α : Type) (sha1 : List Char → List Char)
    (script : List Char) (cache : List (List Char)) (res : α) :
    (mkRediScript sha1 script).script_sha1 = sha1 script ∧
    (sha1 script ∈ cache →
      scriptRun sha1 (mkRediScript sha1 script) cache res =
        .ok (res, cache, [.evalshaEv (sha1 script)])) ∧
    (sha1 script ∉ cache →
      scriptRun sha1 (mkRediScript sha1 script) cache res =
        .ok (res, sha1 script :: cache,
          [.evalshaEv (sha1 script), .scriptLoadEv script,
            .evalshaEv (sha1 script)])) := by
  refine ⟨rfl, ?_, ?_⟩ <;> intro h <;>
    simp [scriptRun, mkRediScript, evalshaCall, h]

/-- Witness for `claim_C9_script_pattern`: an initially empty cache leads to
the load-and-retry path returning the script's result. -/
theorem claim_C9_script_pattern_witness :
    (['x'] ∉ ([] : List (List Char))) ∧
    scriptRun (fun s => s) (mkRediScript (fun s => s) ['x']) [] (1 : Nat) =
      .ok (1, [['x']],
        [.evalshaEv ['x'], .scriptLoadEv ['x'], .evalshaEv ['x']]) :=
  ⟨by decide,
    (claim_C9_script_pattern Nat (fun s => s) ['x'] [] 1).2.2 (by decide)⟩

theorem tdiv_zero_of_nonneg_of_lt (a b : ℤ) (h0 : 0 ≤ a) (hb : 0 ≤ b)
    (h : a < b) : a.tdiv b = 0 := by
  match a, h0 with
  | Int.ofNat n, _ =>
    match b, hb with
    | Int.ofNat m, _ =>
      show Int.ofNat (n / m) = 0
      simp only [Int.ofNat_eq_natCast] at h
      have hnm : n < m := by exact_mod_cast h
      rw [Nat.div_eq_of_lt hnm]
      rfl

theorem pyInt_eq_zero_of_lt_one (q : ℚ) (h0 : 0 < q) (h1 : q < 1) :
    pyInt q = 0 := by
  have hn : 0 < q.num := Rat.num_pos.mpr h0
  have hd : q.num < (q.den : ℤ) := Rat.lt_one_iff_num_lt_denom.mp h1
  exact tdiv_zero_of_nonneg_of_lt q.num (q.den : ℤ) hn.le
    (by positivity) hd

/-- Claim C10: the TTL handed to the conditional-set is truncated to a
whole number of milliseconds via `int(ttl * 1000)`: every ttl with
`0 < ttl < 0.001` seconds passes the `ttl > 0` validation in
`_prepare_lock`, yet the `SET` is issued with a 0-millisecond `px`
argument. -/
theorem claim_C10_px_truncation (lock_name : List Char) (ttl now : ℚ)
    (suffix : List Char) (oracle : Nat → Bool) (fuel : Nat)
    (h0 : 0 < ttl) (h1 : ttl < 1 / 1000) :
    prepare_lock none (some 1) lock_name (some ttl) (.bool true) none now
        suffix =
      .ok ⟨lockname2token lock_name suffix, ttl, none, 1⟩ ∧
    pyInt (ttl * 1000) = 0 ∧
    (lockLoop oracle ⟨lockname2token lock_name suffix, ttl, none, 1⟩
        (.bool true) (fuel + 1) 0 now).events.head? =
      some (.setEv now 0) := by
  have hpx : pyInt (ttl * 1000) = 0 := by
    apply pyInt_eq_zero_of_lt_one
    · positivity
    · linarith
  refine ⟨?_, hpx, ?_⟩
  · simp [prepare_lock, pyOr, h0.ne', h0]
  · by_cases hk : oracle 0 <;> simp [lockLoop, hk, pyTruthyBlock,
      deadlineHit, hpx]

/-- Witness for `claim_C10_px_truncation` at `ttl = 1/2000` (half a
millisecond): validation passes and `px = 0`. -/
theorem claim_C10_px_truncation_witness :
    ((0 : ℚ) < 1 / 2000) ∧ ((1 : ℚ) / 2000 < 1 / 1000) ∧
    (prepare_lock none (some 1) ['k'] (some (1 / 2000)) (.bool true) none 0
        ['s'] =
      .ok ⟨lockname2token ['k'] ['s'], 1 / 2000, none, 1⟩ ∧
    pyInt ((1 : ℚ) / 2000 * 1000) = 0 ∧
    (lockLoop (fun _ => false) ⟨lockname2token ['k'] ['s'], 1 / 2000, none,
        1⟩ (.bool true) (0 + 1) 0 0).events.head? =
      some (.setEv 0 0)) :=
  ⟨by norm_num, by norm_num,
    claim_C10_px_truncation ['k'] (1 / 2000) 0 ['s'] (fun _ => false) 0
      (by norm_num) (by norm_num)⟩

/-- Claim C6: the scoped-acquisition wrapper acquires with the block-forever
policy (`block` left at its default `True`), runs the caller's work, and
attempts exactly one release, with the token obtained, on every exit path —
normal completion and an error raised inside the protected block alike. -/
theorem claim_C6_scoped (α : Type) (self_ttl self_interval : Option ℚ)
    (lock_name : List Char) (ttl : Option ℚ) (now : ℚ) (suffix : List Char)
    (oracle : Nat → Bool) (fuel : Nat) (tok : List Char) (run : LoopRun)
    (hrun : lock self_ttl self_interval lock_name ttl (.bool true) none now
      suffix oracle fuel = .ok run)
    (hacq : run.result = .acquired tok) :
    (∀ a : α,
      contextCall self_ttl self_interval lock_name ttl now suffix oracle
          fuel (.ok a) =
        .ok (some (.ok a), [.acq tok, .bodyEv, .rel (some tok)])) ∧
    (∀ e,
      contextCall self_ttl self_interval lock_name ttl now suffix oracle
          fuel (.exc e : Outcome α) =
        .ok (some (.exc e), [.acq tok, .bodyEv, .rel (some tok)])) := by
  constructor <;> intro x <;>
    simp [contextCall, hrun, hacq, tryFinally]

/-- Witness for `claim_C6_scoped`: a first-attempt acquisition followed by
a normal body and by a raising body, each releasing exactly once with the
minted token. -/
theorem claim_C6_scoped_witness :
    (lock none (some 1) ['k'] (some 1) (.bool true) none 0 ['s']
        (fun _ => true) 1 =
      .ok ⟨.acquired (lockname2token ['k'] ['s']), [.setEv 0 1000], 0⟩) ∧
    (∀ a : Nat,
      contextCall none (some 1) ['k'] (some 1) 0 ['s'] (fun _ => true) 1
          (.ok a) =
        .ok (some (.ok a), [.acq (lockname2token ['k'] ['s']), .bodyEv,
          .rel (some (lockname2token ['k'] ['s']))])) ∧
    (∀ e,
      contextCall none (some 1) ['k'] (some 1) 0 ['s'] (fun _ => true) 1
          (.exc e : Outcome Nat) =
        .ok (some (.exc e), [.acq (lockname2token ['k'] ['s']), .bodyEv,
          .rel (some (lockname2token ['k'] ['s']))])) := by
  have hrun : lock none (some 1) ['k'] (some 1) (.bool true) none 0 ['s']
      (fun _ => true) 1 =
      .ok ⟨.acquired (lockname2token ['k'] ['s']), [.setEv 0 1000], 0⟩ := by
    simp [lock, prepare_lock, pyOr, lockLoop, pyInt, pyTruthyBlock,
      deadlineHit, Except.map]
  obtain ⟨h1, h2⟩ := claim_C6_scoped Nat none (some 1) ['k'] (some 1) 0 ['s']
    (fun _ => true) 1 (lockname2token ['k'] ['s'])
    ⟨.acquired (lockname2token ['k'] ['s']), [.setEv 0 1000], 0⟩ hrun rfl
  exact ⟨hrun, h1, h2⟩

end Redilock
